import Mathlib

/-!
Verification of the eccodes-python GRIB core specification.

The repository ships only the C API header `src/gribapi/grib_api.h`
(declarations, doc comments and error codes); the implementation behind the
header is not part of the repository.  Following the specification, the data
model and the operations are therefore modelled from the spec's words: every
definition whose doc comment starts with `Modelled from the spec:` embeds an
operation whose C implementation is missing from the repository, faithful to
the header's doc comments and to the specification text.

Doubles carry integer payloads in this model: no claim in scope depends on
floating-point arithmetic, and integer payloads keep every definition
executable and decidable.
-/

/-! ### Error codes, from `src/gribapi/grib_api.h` lines 423-561 -/

/-- No error (`GRIB_SUCCESS`, grib_api.h line 428). -/
def GRIB_SUCCESS : Int := 0

/-- Key/value not found (`GRIB_NOT_FOUND`, grib_api.h line 448). -/
def GRIB_NOT_FOUND : Int := -10

/-- Value is read only (`GRIB_READ_ONLY`, grib_api.h line 464). -/
def GRIB_READ_ONLY : Int := -18

/-- Invalid key type (`GRIB_INVALID_TYPE`, grib_api.h line 476). -/
def GRIB_INVALID_TYPE : Int := -24

/-- Missing a key from the fieldset (`GRIB_MISSING_KEY`, grib_api.h line 496). -/
def GRIB_MISSING_KEY : Int := -34

/-- End of index reached (`GRIB_END_OF_INDEX`, grib_api.h line 514). -/
def GRIB_END_OF_INDEX : Int := -43

/-- Index is corrupted (`GRIB_CORRUPTED_INDEX`, grib_api.h line 532). -/
def GRIB_CORRUPTED_INDEX : Int := -52

/-- Wrong type conversion (`GRIB_WRONG_CONVERSION`, grib_api.h line 544). -/
def GRIB_WRONG_CONVERSION : Int := -58

/-- Value out of coding range (`GRIB_OUT_OF_RANGE`, grib_api.h line 558). -/
def GRIB_OUT_OF_RANGE : Int := -65

/-! ### TypedValue and AccessorTree (spec section 3) -/

/-- Native kind of an accessor: long, double or string (spec section 3). -/
inductive NativeKind where
  | long
  | double
  | str
deriving DecidableEq

/-- Modelled from the spec: the tagged union `TypedValue`
(`{ kind: Long | Double | String | Bytes, scalar_or_array }`); the C
implementation behind `grib_handle` is missing from the repository.  Double
payloads are carried as integers, since no claim in scope depends on
floating-point semantics. -/
inductive TypedValue where
  | longV (v : Int)
  | doubleV (v : Int)
  | strV (s : String)
  | longArrV (vs : List Int)
  | doubleArrV (vs : List Int)
deriving DecidableEq

/-- Modelled from the spec: one entry of the AccessorTree
`(name, TypedValue, native_kind, read_only, namespace, attribute_flags)`
plus the declared encoding width used by the `OutOfRange` check; the C
accessor structure is missing from the repository. -/
structure Accessor where
  name : String
  value : TypedValue
  native_kind : NativeKind
  read_only : Bool
  nameSpace : Option String
  attribute_flags : Nat
  width : Option Nat
deriving DecidableEq

/-- An AccessorTree is the ordered, possibly-repeated-name sequence of
accessors produced by decoding one message (spec section 3). -/
abbrev AccessorTree := List Accessor

/-- Number of coded values carried by a TypedValue: 1 for scalars, the array
length for arrays. -/
def valueCount : TypedValue → Nat
  | .longV _ => 1
  | .doubleV _ => 1
  | .strV _ => 1
  | .longArrV vs => vs.length
  | .doubleArrV vs => vs.length

/-- Canonical string representation of a TypedValue (numeric values format
canonically, spec section 4.1). -/
def valueToString : TypedValue → String
  | .longV v => toString v
  | .doubleV v => toString v
  | .strV s => s
  | .longArrV vs => String.intercalate " " (vs.map toString)
  | .doubleArrV vs => String.intercalate " " (vs.map toString)

/-- Decimal value of one character, or none. -/
def digitVal (c : Char) : Option Nat :=
  let n := c.toNat
  if 48 ≤ n ∧ n ≤ 57 then some (n - 48) else none

/-- Accumulate decimal digits; none on the first non-digit. -/
def parseDigitsAux : List Char → Nat → Option Nat
  | [], acc => some acc
  | c :: cs, acc =>
    match digitVal c with
    | some d => parseDigitsAux cs (acc * 10 + d)
    | none => none

/-- Modelled from the spec: the string→numeric parse used by the get/set
coercions (spec section 4.1, \"string→numeric parses and fails with
WrongConversion on non-numeric input\"); the C implementation is missing
from the repository.  Parses an optionally negated decimal integer. -/
def parseIntStr (s : String) : Option Int :=
  match s.data with
  | [] => none
  | c :: cs =>
    if c = '-' then
      match cs with
      | [] => none
      | _ => (parseDigitsAux cs 0).map fun n => -(n : Int)
    else (parseDigitsAux (c :: cs) 0).map fun n => (n : Int)

/-- Coerce a TypedValue to a long: long and double are numeric, a string is
parsed and fails with `GRIB_WRONG_CONVERSION` on non-numeric input
(spec section 4.1). -/
def valueToLong : TypedValue → Except Int Int
  | .longV v => .ok v
  | .doubleV v => .ok v
  | .strV s =>
    match parseIntStr s with
    | some v => .ok v
    | none => .error GRIB_WRONG_CONVERSION
  | .longArrV _ => .error GRIB_INVALID_TYPE
  | .doubleArrV _ => .error GRIB_INVALID_TYPE

/-- Whether an integer value fits the declared encoding width of a field
(spec section 4.1: a value that does not fit fails with `OutOfRange`). -/
def fitsWidth : Option Nat → Int → Bool
  | none, _ => true
  | some w, v => decide (0 ≤ v ∧ v < 2 ^ w)

/-- Last accessor with the given name, or none: get/set operate on the last
matching entry per the documented last-one-wins policy (spec section 3). -/
def findLastAcc : AccessorTree → String → Option Accessor
  | [], _ => none
  | a :: rest, key =>
    match findLastAcc rest key with
    | some r => some r
    | none => if a.name == key then some a else none

/-- Whether some accessor in the tree has the given name. -/
def containsName (t : AccessorTree) (key : String) : Bool :=
  t.any fun a => a.name == key

/-- Apply a fallible update to the LAST accessor with the given name,
rebuilding the tree; fails with `GRIB_NOT_FOUND` when no entry matches and
propagates the update's error otherwise. -/
def setLastWith (key : String) (f : Accessor → Except Int Accessor) :
    AccessorTree → Except Int AccessorTree
  | [] => .error GRIB_NOT_FOUND
  | a :: rest =>
    if containsName rest key then
      match setLastWith key f rest with
      | .ok rest2 => .ok (a :: rest2)
      | .error e => .error e
    else if a.name == key then
      match f a with
      | .ok a2 => .ok (a2 :: rest)
      | .error e => .error e
    else .error GRIB_NOT_FOUND

/-- Store a long into one accessor, coercing to its native kind: long stores
directly (checking the encoding width), double is exact, string formats
canonically; read-only fields reject the set (spec section 4.1). -/
def setAccessorLong (v : Int) (a : Accessor) : Except Int Accessor :=
  if a.read_only then .error GRIB_READ_ONLY
  else
    match a.native_kind with
    | .long =>
      if fitsWidth a.width v then .ok { a with value := .longV v }
      else .error GRIB_OUT_OF_RANGE
    | .double => .ok { a with value := .doubleV v }
    | .str => .ok { a with value := .strV (toString v) }

/-- Store a double into one accessor, coercing to its native kind
(double→long truncates; exact in the integer model of doubles). -/
def setAccessorDouble (v : Int) (a : Accessor) : Except Int Accessor :=
  if a.read_only then .error GRIB_READ_ONLY
  else
    match a.native_kind with
    | .long =>
      if fitsWidth a.width v then .ok { a with value := .longV v }
      else .error GRIB_OUT_OF_RANGE
    | .double => .ok { a with value := .doubleV v }
    | .str => .ok { a with value := .strV (toString v) }

/-- Store a string into one accessor, coercing to its native kind: a
numeric-native field parses the string and fails with
`GRIB_WRONG_CONVERSION` on non-numeric input (spec section 4.1). -/
def setAccessorString (s : String) (a : Accessor) : Except Int Accessor :=
  if a.read_only then .error GRIB_READ_ONLY
  else
    match a.native_kind with
    | .long =>
      match parseIntStr s with
      | some v =>
        if fitsWidth a.width v then .ok { a with value := .longV v }
        else .error GRIB_OUT_OF_RANGE
      | none => .error GRIB_WRONG_CONVERSION
    | .double =>
      match parseIntStr s with
      | some v => .ok { a with value := .doubleV v }
      | none => .error GRIB_WRONG_CONVERSION
    | .str => .ok { a with value := .strV s }

/-- Modelled from the spec: `grib_get_long` (grib_api.h lines 237-246); the
C implementation is missing from the repository.  If several keys of the
same name are present, the last one is returned. -/
def grib_get_long (t : AccessorTree) (key : String) : Except Int Int :=
  match findLastAcc t key with
  | none => .error GRIB_NOT_FOUND
  | some a => valueToLong a.value

/-- Modelled from the spec: `grib_get_string` (grib_api.h lines 259-269); the
C implementation is missing from the repository.  If several keys of the
same name are present, the last one is returned. -/
def grib_get_string (t : AccessorTree) (key : String) : Except Int String :=
  match findLastAcc t key with
  | none => .error GRIB_NOT_FOUND
  | some a => .ok (valueToString a.value)

/-- Modelled from the spec: `grib_set_long` (grib_api.h lines 307-316); the
C implementation is missing from the repository.  If several keys of the
same name are present, the last one is set; on failure the tree is returned
unchanged together with the error code. -/
def grib_set_long (t : AccessorTree) (key : String) (v : Int) :
    AccessorTree × Int :=
  match setLastWith key (setAccessorLong v) t with
  | .ok t2 => (t2, GRIB_SUCCESS)
  | .error e => (t, e)

/-- Modelled from the spec: `grib_set_double` (grib_api.h lines 318-327); the
C implementation is missing from the repository. -/
def grib_set_double (t : AccessorTree) (key : String) (v : Int) :
    AccessorTree × Int :=
  match setLastWith key (setAccessorDouble v) t with
  | .ok t2 => (t2, GRIB_SUCCESS)
  | .error e => (t, e)

/-- Modelled from the spec: `grib_set_string` (grib_api.h lines 329-339); the
C implementation is missing from the repository. -/
def grib_set_string (t : AccessorTree) (key : String) (s : String) :
    AccessorTree × Int :=
  match setLastWith key (setAccessorString s) t with
  | .ok t2 => (t2, GRIB_SUCCESS)
  | .error e => (t, e)

/-- Total number of coded values over all accessors with the given name. -/
def sizeSum : AccessorTree → String → Nat
  | [], _ => 0
  | a :: rest, key =>
    (if a.name == key then valueCount a.value else 0) + sizeSum rest key

/-- Modelled from the spec: `grib_get_size` (grib_api.h lines 217-225); the
C implementation is missing from the repository.  If several keys of the
same name are present, the total sum is returned. -/
def grib_get_size (t : AccessorTree) (key : String) : Except Int Nat :=
  if containsName t key then .ok (sizeSum t key) else .error GRIB_NOT_FOUND

/-- Maximum length of the string representation over all accessors with the
given name. -/
def lenMax : AccessorTree → String → Nat
  | [], _ => 0
  | a :: rest, key =>
    max (if a.name == key then (valueToString a.value).length else 0)
      (lenMax rest key)

/-- Modelled from the spec: `grib_get_length` (grib_api.h lines 227-235); the
C implementation is missing from the repository.  If several keys of the
same name are present, the maximum length is returned. -/
def grib_get_length (t : AccessorTree) (key : String) : Except Int Nat :=
  if containsName t key then .ok (lenMax t key) else .error GRIB_NOT_FOUND

/-! ### KeysIterator (spec section 4.2, grib_api.h lines 374-406) -/

/-- State of a keys iterator: `Created`, `Positioned i` or `Exhausted`
(spec section 4.2). -/
inductive KIState where
  | created
  | positioned (i : Nat)
  | exhausted
deriving DecidableEq

/-- Modelled from the spec: the `grib_keys_iterator` structure
(grib_api.h line 31; spec section 3: non-owning handle reference, cursor,
filter flags, namespace); the C implementation is missing from the
repository. -/
structure grib_keys_iterator where
  entries : AccessorTree
  filter_flags : Nat
  nameSpace : Option String
  state : KIState
deriving DecidableEq

/-- Whether one accessor satisfies the namespace filter and the
attribute-flag filter (all requested flags must be present,
spec section 4.2). -/
def kiMatches (flags : Nat) (ns : Option String) (a : Accessor) : Bool :=
  (Nat.land flags a.attribute_flags == flags) &&
    (match ns with
     | none => true
     | some s => a.nameSpace == some s)

/-- Index of the first matching accessor in a list, or none. -/
def firstMatchIdx (p : Accessor → Bool) : AccessorTree → Option Nat
  | [] => none
  | a :: rest =>
    if p a then some 0 else (firstMatchIdx p rest).map (· + 1)

/-- First matching position at or after `start` in the iterator's entry
list, or none. -/
def kiSearch (it : grib_keys_iterator) (start : Nat) : Option Nat :=
  match firstMatchIdx (kiMatches it.filter_flags it.nameSpace)
      (it.entries.drop start) with
  | some j => some (start + j)
  | none => none

/-- Modelled from the spec: `grib_keys_iterator_new` (grib_api.h
lines 380-388); the C implementation is missing from the repository. -/
def grib_keys_iterator_new (t : AccessorTree) (flags : Nat)
    (ns : Option String) : grib_keys_iterator :=
  { entries := t, filter_flags := flags, nameSpace := ns,
    state := KIState.created }

/-- Modelled from the spec: `grib_keys_iterator_next` (grib_api.h
lines 390-394); the C implementation is missing from the repository.
Returns 1 if a next eligible entry exists, 0 otherwise; once no further
entry matches, the iterator stays `Exhausted` (spec section 4.2). -/
def grib_keys_iterator_next (it : grib_keys_iterator) :
    grib_keys_iterator × Int :=
  match it.state with
  | .exhausted => (it, 0)
  | .created =>
    match kiSearch it 0 with
    | some j => ({ it with state := KIState.positioned j }, 1)
    | none => ({ it with state := KIState.exhausted }, 0)
  | .positioned i =>
    match kiSearch it (i + 1) with
    | some j => ({ it with state := KIState.positioned j }, 1)
    | none => ({ it with state := KIState.exhausted }, 0)

/-- Iterate `grib_keys_iterator_next` n times, keeping the state. -/
def kiStepN : Nat → grib_keys_iterator → grib_keys_iterator
  | 0, it => it
  | n + 1, it => (grib_keys_iterator_next (kiStepN n it)).1

/-! ### Index data model (spec section 3) -/

/-- Per-key selection state: unselected, "nothing matches" after a failed
select, or a chosen dictionary index (spec sections 3 and 4.4). -/
inductive Selection where
  | unselected
  | nothingMatches
  | chosen (i : Nat)
deriving DecidableEq

/-- One index key spec: name plus declared kind (spec section 3). -/
structure KeySpec where
  name : String
  kind : NativeKind
deriving DecidableEq

/-- One index row: per-key dictionary indices in key_spec order, plus the
message byte offset and length (spec section 3). -/
structure IndexRow where
  dictIdxs : List Nat
  offset : Nat
  length : Nat
deriving DecidableEq

/-- Modelled from the spec: the `grib_index` structure (grib_api.h line 40;
spec section 3: key_specs, per-key dictionaries in first-seen order, rows in
file order, per-key selection, enumeration cursor); the C implementation is
missing from the repository. -/
structure grib_index where
  key_specs : List KeySpec
  dictionaries : List (List String)
  rows : List IndexRow
  selection : List Selection
  cursor : Nat
deriving DecidableEq

/-- Position of a value in a dictionary, or none. -/
def dictFind : List String → String → Option Nat
  | [], _ => none
  | d :: ds, v => if d == v then some 0 else (dictFind ds v).map (· + 1)

/-- Look up a value in a dictionary, inserting it at the end when new;
returns the updated dictionary and the value's index (first-seen order,
spec section 4.3). -/
def dictInsert (d : List String) (v : String) : List String × Nat :=
  match dictFind d v with
  | some i => (d, i)
  | none => (d ++ [v], d.length)

/-- Position of a key name in the key_specs list, or none. -/
def keyPos : List KeySpec → String → Option Nat
  | [], _ => none
  | ks :: rest, key =>
    if ks.name == key then some 0 else (keyPos rest key).map (· + 1)

/-- Whether every key has an active selection (chosen or nothing-matches):
the enumeration precondition of spec section 4.4. -/
def Selection.isActive : Selection → Bool
  | .unselected => false
  | .nothingMatches => true
  | .chosen _ => true

/-- Every key_spec has an active selection. -/
def allSelected (idx : grib_index) : Bool :=
  idx.selection.all Selection.isActive

/-- A row matches iff, for every key_spec, the row's dictionary index equals
that key's currently-selected dictionary index (spec section 4.5); a
nothing-matches or unselected entry matches no row. -/
def selMatch : List Selection → List Nat → Bool
  | [], _ => true
  | _ :: _, [] => true
  | s :: ss, d :: ds =>
    (match s with
     | Selection.chosen i => i == d
     | _ => false) && selMatch ss ds

/-- Whether a row matches the current selection. -/
def rowMatches (sel : List Selection) (r : IndexRow) : Bool :=
  selMatch sel r.dictIdxs

/-- First matching row in a list together with its position, or none. -/
def findFirstMatch (sel : List Selection) : List IndexRow → Option (Nat × IndexRow)
  | [] => none
  | r :: rs =>
    if rowMatches sel r then some (0, r)
    else (findFirstMatch sel rs).map fun p => (p.1 + 1, p.2)

/-- Modelled from the spec: `grib_index_get_size` (grib_api.h lines 68-77);
the C implementation is missing from the repository.  Returns the number of
distinct values of the key (dictionary cardinality), failing with
`GRIB_NOT_FOUND` when the key is not in the index. -/
def grib_index_get_size (idx : grib_index) (key : String) : Except Int Nat :=
  match keyPos idx.key_specs key with
  | none => .error GRIB_NOT_FOUND
  | some k => .ok (idx.dictionaries.getD k []).length

/-- Modelled from the spec: `grib_index_get_string` (grib_api.h
lines 92-103); the C implementation is missing from the repository.
Returns the distinct values of the key in first-seen order. -/
def grib_index_get_string (idx : grib_index) (key : String) :
    Except Int (List String) :=
  match keyPos idx.key_specs key with
  | none => .error GRIB_NOT_FOUND
  | some k => .ok (idx.dictionaries.getD k [])

/-- Modelled from the spec: `grib_index_select_string` (grib_api.h
lines 105-114); the C implementation is missing from the repository.
On match the dictionary index becomes the key's active selection and the
cursor resets; on no match the call fails `GRIB_NOT_FOUND` and the key's
selection becomes nothing-matches (spec section 4.4). -/
def grib_index_select_string (idx : grib_index) (key : String)
    (value : String) : grib_index × Int :=
  match keyPos idx.key_specs key with
  | none => (idx, GRIB_NOT_FOUND)
  | some k =>
    match dictFind (idx.dictionaries.getD k []) value with
    | some d =>
      ({ idx with selection := idx.selection.set k (Selection.chosen d),
                  cursor := 0 }, GRIB_SUCCESS)
    | none =>
      ({ idx with selection := idx.selection.set k Selection.nothingMatches,
                  cursor := 0 }, GRIB_NOT_FOUND)

/-- Byte location (offset, length) recorded for a row; the handle returned
by enumeration is rebuilt by re-reading this byte range (spec section 4.5). -/
def rowLoc (r : IndexRow) : Nat × Nat := (r.offset, r.length)

/-- Modelled from the spec: `grib_handle_new_from_index` (grib_api.h
lines 116-125); the C implementation is missing from the repository.
Requires every key to have an active selection (else `GRIB_MISSING_KEY`);
scans the rows in file order from the cursor, returning the first matching
row's byte location and advancing the cursor past it; with no match the
cursor exhausts and the call signals `GRIB_END_OF_INDEX` with a null
handle (spec sections 4.4 and 4.5). -/
def grib_handle_new_from_index (idx : grib_index) :
    grib_index × Option (Nat × Nat) × Int :=
  if allSelected idx then
    match findFirstMatch idx.selection (idx.rows.drop idx.cursor) with
    | some p =>
      ({ idx with cursor := idx.cursor + p.1 + 1 }, some (rowLoc p.2),
        GRIB_SUCCESS)
    | none =>
      ({ idx with cursor := idx.rows.length }, none, GRIB_END_OF_INDEX)
  else (idx, none, GRIB_MISSING_KEY)

/-- Iterate `grib_handle_new_from_index` n times, keeping the state. -/
def stepN : Nat → grib_index → grib_index
  | 0, idx => idx
  | n + 1, idx => (grib_handle_new_from_index (stepN n idx)).1

/-- Collect the byte locations of all handles produced by repeated
enumeration calls until a null handle is returned, with enough fuel. -/
def enumerateAux : Nat → grib_index → List (Nat × Nat)
  | 0, _ => []
  | fuel + 1, idx =>
    match grib_handle_new_from_index idx with
    | (idx2, some loc, _) => loc :: enumerateAux fuel idx2
    | (_, none, _) => []

/-- Full enumeration sequence: repeated `grib_handle_new_from_index` calls
until the null-handle sentinel. -/
def enumerateAll (idx : grib_index) : List (Nat × Nat) :=
  enumerateAux (idx.rows.length + 1) idx

/-- Apply a list of (key, value) select calls in order, keeping the index
state (failed selects keep their nothing-matches effect). -/
def applySelects (idx : grib_index) : List (String × String) → grib_index
  | [] => idx
  | kv :: rest =>
    applySelects (grib_index_select_string idx kv.1 kv.2).1 rest

/-! ### Index build (spec section 4.3, grib_api.h lines 42-56) -/

/-- One message of the input file as seen by the index builder: its byte
length and the key values extractable from its decoded form.  Spec
section 4.3: rows never retain decoded state, only byte locations. -/
structure GribMessage where
  length : Nat
  keyVals : List (String × String)
deriving DecidableEq

/-- Value of a key in a message, or none when the message lacks the key. -/
def lookupKey (m : GribMessage) (key : String) : Option String :=
  (m.keyVals.find? fun p => p.1 == key).map fun p => p.2

/-- Values of all requested keys in a message, or none when some key is
absent (spec section 4.3 default policy: such a message is skipped). -/
def extractVals (m : GribMessage) : List String → Option (List String)
  | [] => some []
  | k :: ks =>
    match lookupKey m k with
    | some v => (extractVals m ks).map (v :: ·)
    | none => none

/-- Insert each extracted value into its key's dictionary, returning the
updated dictionaries and the per-key dictionary indices. -/
def insertAll : List (List String) → List String → List (List String) × List Nat
  | d :: ds, v :: vs =>
    let p := dictInsert d v
    let q := insertAll ds vs
    (p.1 :: q.1, p.2 :: q.2)
  | ds, _ => (ds, [])

/-- Scan the messages in file order, accumulating dictionaries and rows:
messages lacking some key are skipped, others append one row with the
message's byte offset and length (spec section 4.3). -/
def buildAux (keys : List String) :
    List GribMessage → Nat → List (List String) →
      List (List String) × List IndexRow
  | [], _, dicts => (dicts, [])
  | m :: ms, off, dicts =>
    match extractVals m keys with
    | none => buildAux keys ms (off + m.length) dicts
    | some vals =>
      let p := insertAll dicts vals
      let q := buildAux keys ms (off + m.length) p.1
      (q.1, { dictIdxs := p.2, offset := off, length := m.length } :: q.2)

/-- Modelled from the spec: `grib_index_new_from_file` (grib_api.h
lines 42-56); the C implementation is missing from the repository.  The
file is modelled as its list of messages; all keys are taken with string
kind, matching the string-typed select of the claims in scope. -/
def grib_index_new_from_file (keys : List String) (msgs : List GribMessage) :
    grib_index :=
  let p := buildAux keys msgs 0 (keys.map fun _ => [])
  { key_specs := keys.map fun k => { name := k, kind := NativeKind.str }
    dictionaries := p.1
    rows := p.2
    selection := keys.map fun _ => Selection.unselected
    cursor := 0 }

/-! ### IndexCodec (spec section 4.6, grib_api.h lines 58-66) -/

/-- One token of the persisted index file: a number or a string.  The
on-disk format is modelled at token granularity (header, dictionary
section, row section), spec section 6. -/
inductive Tok where
  | n (v : Nat)
  | s (v : String)
deriving DecidableEq

/-- Format-version tag leading the persisted index (spec section 6). -/
def indexFormatVersion : Nat := 1

/-- Kind tag of a key spec in the persisted index. -/
def serKindTag : NativeKind → Nat
  | .long => 0
  | .double => 1
  | .str => 2

/-- Parse a kind tag, failing with `GRIB_CORRUPTED_INDEX` on an unknown
tag. -/
def parseKind (tag : Nat) : Except Int NativeKind :=
  if tag == 0 then .ok NativeKind.long
  else if tag == 1 then .ok NativeKind.double
  else if tag == 2 then .ok NativeKind.str
  else .error GRIB_CORRUPTED_INDEX

/-- Serialized form of one key spec: name then kind tag. -/
def serKeySpec (ks : KeySpec) : List Tok :=
  [Tok.s ks.name, Tok.n (serKindTag ks.kind)]

/-- Serialized form of one dictionary: count then the values in order. -/
def serDict (d : List String) : List Tok :=
  Tok.n d.length :: d.map Tok.s

/-- Serialized form of one row: the per-key dictionary indices (fixed width,
one per key spec) then offset and length. -/
def serRow (r : IndexRow) : List Tok :=
  r.dictIdxs.map Tok.n ++ [Tok.n r.offset, Tok.n r.length]

/-- Modelled from the spec: `grib_index_write` (grib_api.h lines 58-65); the
C implementation is missing from the repository.  Serializes version,
key_specs, each key's dictionary in order, and the rows as fixed-width
tuples (spec sections 4.6 and 6); selection and cursor are not persisted. -/
def grib_index_write (idx : grib_index) : List Tok :=
  [Tok.n indexFormatVersion, Tok.n idx.key_specs.length] ++
    idx.key_specs.flatMap serKeySpec ++
    idx.dictionaries.flatMap serDict ++
    [Tok.n idx.rows.length] ++
    idx.rows.flatMap serRow

/-- Read one number token. -/
def readTokNat : List Tok → Except Int (Nat × List Tok)
  | Tok.n v :: rest => .ok (v, rest)
  | _ => .error GRIB_CORRUPTED_INDEX

/-- Read one string token. -/
def readTokStr : List Tok → Except Int (String × List Tok)
  | Tok.s v :: rest => .ok (v, rest)
  | _ => .error GRIB_CORRUPTED_INDEX

/-- Read a fixed number of items with a given item reader. -/
def readN (p : List Tok → Except Int (α × List Tok)) :
    Nat → List Tok → Except Int (List α × List Tok)
  | 0, ts => .ok ([], ts)
  | k + 1, ts =>
    match p ts with
    | .ok a =>
      match readN p k a.2 with
      | .ok as => .ok (a.1 :: as.1, as.2)
      | .error e => .error e
    | .error e => .error e

/-- Read one key spec: name then kind tag. -/
def readKeySpec (ts : List Tok) : Except Int (KeySpec × List Tok) :=
  match readTokStr ts with
  | .ok nm =>
    match readTokNat nm.2 with
    | .ok tag =>
      match parseKind tag.1 with
      | .ok k => .ok ({ name := nm.1, kind := k }, tag.2)
      | .error e => .error e
    | .error e => .error e
  | .error e => .error e

/-- Read one dictionary: count then that many values. -/
def readDict (ts : List Tok) : Except Int (List String × List Tok) :=
  match readTokNat ts with
  | .ok c => readN readTokStr c.1 c.2
  | .error e => .error e

/-- Read one row of the given key width: the dictionary indices then offset
and length. -/
def readRow (nk : Nat) (ts : List Tok) : Except Int (IndexRow × List Tok) :=
  match readN readTokNat nk ts with
  | .ok idxs =>
    match readTokNat idxs.2 with
    | .ok off =>
      match readTokNat off.2 with
      | .ok len =>
        .ok ({ dictIdxs := idxs.1, offset := off.1, length := len.1 }, len.2)
      | .error e => .error e
    | .error e => .error e
  | .error e => .error e

/-- Modelled from the spec: `grib_index_read` (grib_api.h line 66); the C
implementation is missing from the repository.  Parses the persisted token
sequence, failing atomically with `GRIB_CORRUPTED_INDEX` on a version
mismatch or a structurally inconsistent file (spec sections 4.6 and 7); the
reloaded index starts with no selection and the cursor at the start. -/
def grib_index_read (ts : List Tok) : Except Int grib_index :=
  match readTokNat ts with
  | .ok ver =>
    if ver.1 == indexFormatVersion then
      match readTokNat ver.2 with
      | .ok nk =>
        match readN readKeySpec nk.1 nk.2 with
        | .ok specs =>
          match readN readDict nk.1 specs.2 with
          | .ok dicts =>
            match readTokNat dicts.2 with
            | .ok nr =>
              match readN (readRow nk.1) nr.1 nr.2 with
              | .ok rows =>
                match rows.2 with
                | [] =>
                  .ok { key_specs := specs.1
                        dictionaries := dicts.1
                        rows := rows.1
                        selection := specs.1.map fun _ => Selection.unselected
                        cursor := 0 }
                | _ => .error GRIB_CORRUPTED_INDEX
              | .error e => .error e
            | .error e => .error e
          | .error e => .error e
        | .error e => .error e
      | .error e => .error e
    else .error GRIB_CORRUPTED_INDEX
  | .error e => .error e

/-! ### Concrete fixtures (the end-to-end scenario of spec section 8) -/

/-- The three-message file of the spec's end-to-end scenario. -/
def exampleMsgs : List GribMessage :=
  [ { length := 100, keyVals := [("shortName", "t"), ("level", "850")] },
    { length := 120, keyVals := [("shortName", "t"), ("level", "500")] },
    { length := 90, keyVals := [("shortName", "z"), ("level", "850")] } ]

/-- The two index keys of the spec's end-to-end scenario. -/
def exampleKeys : List String := ["shortName", "level"]

/-- The index built on the scenario file. -/
def exampleIndex : grib_index :=
  grib_index_new_from_file exampleKeys exampleMsgs

/-- The scenario selection: shortName = t, level = 850. -/
def exampleSels : List (String × String) :=
  [("shortName", "t"), ("level", "850")]

/-- The scenario index with both keys selected. -/
def exampleSelected : grib_index := applySelects exampleIndex exampleSels

/-- The scenario index with only the level key selected. -/
def exampleIndexC3 : grib_index :=
  (grib_index_select_string exampleIndex "level" "850").1

/-- A writable long accessor named count with value 3. -/
def accA : Accessor :=
  { name := "count", value := TypedValue.longV 3,
    native_kind := NativeKind.long, read_only := false, nameSpace := none,
    attribute_flags := 0, width := none }

/-- A second writable long accessor named count with value 7. -/
def accB : Accessor := { accA with value := TypedValue.longV 7 }

/-- A read-only long accessor named ro. -/
def accRO : Accessor :=
  { accA with name := "ro", read_only := true }

/-- A writable string-native accessor named str. -/
def accStr : Accessor :=
  { name := "str", value := TypedValue.strV "x",
    native_kind := NativeKind.str, read_only := false, nameSpace := none,
    attribute_flags := 0, width := none }

deriving instance DecidableEq for Except

/-! ### Accessor lemmas -/

theorem containsName_false_of (t : AccessorTree) (key : String)
    (h : ∀ a ∈ t, a.name ≠ key) : containsName t key = false := by
  simp only [containsName, List.any_eq_false]
  intro a ha
  simp [beq_iff_eq, h a ha]

theorem containsName_append_cons (t1 t3 : AccessorTree) (b : Accessor)
    (key : String) (hb : b.name = key) :
    containsName (t1 ++ b :: t3) key = true := by
  simp [containsName, List.any_eq_true]
  exact Or.inr (Or.inl (by simp [hb]))

theorem findLastAcc_eq_none (t : AccessorTree) (key : String)
    (h : ∀ a ∈ t, a.name ≠ key) : findLastAcc t key = none := by
  induction t with
  | nil => rfl
  | cons a rest ih =>
    simp only [findLastAcc]
    rw [ih fun x hx => h x (List.mem_cons_of_mem a hx)]
    simp [beq_iff_eq, h a (List.mem_cons_self a rest)]

theorem findLastAcc_append_some (l1 l2 : AccessorTree) (key : String)
    (a : Accessor) (h : findLastAcc l2 key = some a) :
    findLastAcc (l1 ++ l2) key = some a := by
  induction l1 with
  | nil => simpa using h
  | cons x rest ih =>
    simp only [List.cons_append, findLastAcc, List.append_eq]
    rw [ih]

theorem findLastAcc_last (t1 t3 : AccessorTree) (b : Accessor) (key : String)
    (hb : b.name = key) (h3 : ∀ a ∈ t3, a.name ≠ key) :
    findLastAcc (t1 ++ b :: t3) key = some b := by
  apply findLastAcc_append_some
  simp only [findLastAcc]
  rw [findLastAcc_eq_none t3 key h3]
  simp [beq_iff_eq, hb]

theorem setLastWith_last_ok (t1 t3 : AccessorTree) (b b2 : Accessor)
    (key : String) (f : Accessor → Except Int Accessor)
    (hb : b.name = key) (h3 : ∀ a ∈ t3, a.name ≠ key)
    (hf : f b = .ok b2) :
    setLastWith key f (t1 ++ b :: t3) = .ok (t1 ++ b2 :: t3) := by
  induction t1 with
  | nil =>
    simp only [List.nil_append, setLastWith]
    rw [containsName_false_of t3 key h3]
    simp [beq_iff_eq, hb, hf]
  | cons x rest ih =>
    simp only [List.cons_append, setLastWith, List.append_eq]
    rw [containsName_append_cons rest t3 b key hb]
    simp only [if_true, ih]

theorem setLastWith_last_err (t1 t3 : AccessorTree) (b : Accessor)
    (key : String) (f : Accessor → Except Int Accessor) (e : Int)
    (hb : b.name = key) (h3 : ∀ a ∈ t3, a.name ≠ key)
    (hf : f b = .error e) :
    setLastWith key f (t1 ++ b :: t3) = .error e := by
  induction t1 with
  | nil =>
    simp only [List.nil_append, setLastWith]
    rw [containsName_false_of t3 key h3]
    simp [beq_iff_eq, hb, hf]
  | cons x rest ih =>
    simp only [List.cons_append, setLastWith, List.append_eq]
    rw [containsName_append_cons rest t3 b key hb]
    simp only [if_true, ih]

theorem grib_set_long_fail_unchanged (t : AccessorTree) (key : String)
    (v : Int) (h : (grib_set_long t key v).2 ≠ GRIB_SUCCESS) :
    (grib_set_long t key v).1 = t := by
  unfold grib_set_long at *
  cases hs : setLastWith key (setAccessorLong v) t <;> simp [hs] at h ⊢

theorem grib_set_double_fail_unchanged (t : AccessorTree) (key : String)
    (v : Int) (h : (grib_set_double t key v).2 ≠ GRIB_SUCCESS) :
    (grib_set_double t key v).1 = t := by
  unfold grib_set_double at *
  cases hs : setLastWith key (setAccessorDouble v) t <;> simp [hs] at h ⊢

theorem grib_set_string_fail_unchanged (t : AccessorTree) (key : String)
    (s : String) (h : (grib_set_string t key s).2 ≠ GRIB_SUCCESS) :
    (grib_set_string t key s).1 = t := by
  unfold grib_set_string at *
  cases hs : setLastWith key (setAccessorString s) t <;> simp [hs] at h ⊢

theorem sizeSum_eq_filter_sum (t : AccessorTree) (key : String) :
    sizeSum t key
      = ((t.filter fun a => a.name == key).map
          fun a => valueCount a.value).sum := by
  induction t with
  | nil => rfl
  | cons a rest ih =>
    simp only [sizeSum, ih]
    by_cases h : a.name = key
    · simp [List.filter_cons, beq_iff_eq, h]
    · simp [List.filter_cons, beq_iff_eq, h]

theorem lenMax_eq_filter_max (t : AccessorTree) (key : String) :
    lenMax t key
      = ((t.filter fun a => a.name == key).map
          fun a => (valueToString a.value).length).foldr max 0 := by
  induction t with
  | nil => rfl
  | cons a rest ih =>
    simp only [lenMax, ih]
    by_cases h : a.name = key
    · simp [List.filter_cons, beq_iff_eq, h]
    · simp [List.filter_cons, beq_iff_eq, h]

theorem containsName_of_filter_ne_nil (t : AccessorTree) (key : String)
    (h : (t.filter fun a => a.name == key) ≠ []) :
    containsName t key = true := by
  obtain ⟨a, ha⟩ := List.exists_mem_of_ne_nil _ h
  rw [List.mem_filter] at ha
  simp only [containsName, List.any_eq_true]
  exact ⟨a, ha.1, ha.2⟩

/-! ### KeysIterator lemmas -/

theorem ki_next_zero_exhausted (it : grib_keys_iterator)
    (h : (grib_keys_iterator_next it).2 = 0) :
    (grib_keys_iterator_next it).1.state = KIState.exhausted := by
  cases hs : it.state with
  | exhausted =>
    simp [grib_keys_iterator_next, hs]
  | created =>
    cases hk : kiSearch it 0 <;>
      simp [grib_keys_iterator_next, hs, hk] at h ⊢
  | positioned i =>
    cases hk : kiSearch it (i + 1) <;>
      simp [grib_keys_iterator_next, hs, hk] at h ⊢

theorem ki_next_of_exhausted (it : grib_keys_iterator)
    (h : it.state = KIState.exhausted) :
    grib_keys_iterator_next it = (it, 0) := by
  unfold grib_keys_iterator_next
  rw [h]

/-! ### Enumeration lemmas -/

theorem findFirstMatch_none (sel : List Selection) (rows : List IndexRow)
    (h : findFirstMatch sel rows = none) :
    rows.filter (rowMatches sel) = [] := by
  induction rows with
  | nil => rfl
  | cons r rs ih =>
    simp only [findFirstMatch] at h
    by_cases hm : rowMatches sel r
    · rw [if_pos hm] at h
      exact absurd h (by simp)
    · rw [if_neg hm] at h
      have h2 : findFirstMatch sel rs = none := by
        cases hp : findFirstMatch sel rs <;> simp [hp] at h ⊢
      simp [List.filter_cons, hm, ih h2]

theorem findFirstMatch_some (sel : List Selection) :
    ∀ (rows : List IndexRow) (i : Nat) (r : IndexRow),
    findFirstMatch sel rows = some (i, r) →
    rowMatches sel r = true ∧ i < rows.length ∧
      rows.filter (rowMatches sel)
        = r :: ((rows.drop (i + 1)).filter (rowMatches sel)) := by
  intro rows
  induction rows with
  | nil => intro i r h; simp [findFirstMatch] at h
  | cons a rs ih =>
    intro i r h
    simp only [findFirstMatch] at h
    by_cases hm : rowMatches sel a
    · rw [if_pos hm] at h
      simp only [Option.some.injEq, Prod.mk.injEq] at h
      obtain ⟨hi, hr⟩ := h
      subst hi
      subst hr
      refine ⟨hm, Nat.succ_pos rs.length, ?_⟩
      simp [List.filter_cons, hm]
    · rw [if_neg hm] at h
      cases hp : findFirstMatch sel rs with
      | none => rw [hp] at h; simp at h
      | some p =>
        rw [hp] at h
        simp only [Option.map_some', Option.some.injEq, Prod.mk.injEq] at h
        obtain ⟨hi, hr⟩ := h
        obtain ⟨hmr, hlt, hfil⟩ := ih p.1 p.2 hp
        subst hi
        subst hr
        refine ⟨hmr, Nat.succ_lt_succ hlt, ?_⟩
        simp only [List.drop_succ_cons]
        simp [List.filter_cons, hm, hfil]

theorem handle_step_shape (idx : grib_index) :
    ∃ c, (grib_handle_new_from_index idx).1 = { idx with cursor := c } := by
  unfold grib_handle_new_from_index
  by_cases hs : allSelected idx
  · rw [if_pos hs]
    cases hf : findFirstMatch idx.selection (idx.rows.drop idx.cursor) with
    | none => exact ⟨idx.rows.length, rfl⟩
    | some p => exact ⟨idx.cursor + p.1 + 1, rfl⟩
  · exact ⟨idx.cursor, by rw [if_neg hs]⟩

theorem stepN_shape (n : Nat) (idx : grib_index) :
    ∃ c, stepN n idx = { idx with cursor := c } := by
  induction n with
  | zero => exact ⟨idx.cursor, rfl⟩
  | succ n ih =>
    obtain ⟨c, hc⟩ := ih
    obtain ⟨c2, hc2⟩ := handle_step_shape (stepN n idx)
    refine ⟨c2, ?_⟩
    show (grib_handle_new_from_index (stepN n idx)).1 = _
    rw [hc2, hc]

theorem enumerateAux_eq :
    ∀ (fuel : Nat) (idx : grib_index),
      allSelected idx = true → idx.rows.length - idx.cursor < fuel →
      enumerateAux fuel idx
        = ((idx.rows.drop idx.cursor).filter
            (rowMatches idx.selection)).map rowLoc := by
  intro fuel
  induction fuel with
  | zero => intro idx _ hb; exact absurd hb (Nat.not_lt_zero _)
  | succ fuel ih =>
    intro idx hsel hb
    cases hf : findFirstMatch idx.selection (idx.rows.drop idx.cursor) with
    | none =>
      have hstep : grib_handle_new_from_index idx
          = ({ idx with cursor := idx.rows.length }, none,
              GRIB_END_OF_INDEX) := by
        unfold grib_handle_new_from_index
        rw [if_pos hsel, hf]
      simp [enumerateAux, hstep, findFirstMatch_none _ _ hf]
    | some p =>
      have hstep : grib_handle_new_from_index idx
          = ({ idx with cursor := idx.cursor + p.1 + 1 },
              some (rowLoc p.2), GRIB_SUCCESS) := by
        unfold grib_handle_new_from_index
        rw [if_pos hsel, hf]
      obtain ⟨hmr, hlt, hfil⟩ :=
        findFirstMatch_some idx.selection (idx.rows.drop idx.cursor) p.1 p.2
          (by rw [hf])
      rw [List.length_drop] at hlt
      have ihx := ih { idx with cursor := idx.cursor + p.1 + 1 } hsel
        (by simp only []; omega)
      simp only [enumerateAux, hstep]
      rw [ihx]
      show rowLoc p.2
            :: ((idx.rows.drop (idx.cursor + p.1 + 1)).filter
                (rowMatches idx.selection)).map rowLoc
          = ((idx.rows.drop idx.cursor).filter
              (rowMatches idx.selection)).map rowLoc
      rw [hfil, List.map_cons, List.drop_drop]
      have heq : idx.cursor + (p.1 + 1) = idx.cursor + p.1 + 1 := by omega
      rw [heq]

theorem enumerateAll_eq (idx : grib_index)
    (hsel : allSelected idx = true) :
    enumerateAll idx
      = ((idx.rows.drop idx.cursor).filter
          (rowMatches idx.selection)).map rowLoc :=
  enumerateAux_eq _ idx hsel (by omega)

theorem select_shape (idx : grib_index) (key value : String) :
    ∃ sel2 c2, (grib_index_select_string idx key value).1
      = { idx with selection := sel2, cursor := c2 } := by
  unfold grib_index_select_string
  split
  · exact ⟨idx.selection, idx.cursor, rfl⟩
  · split
    · exact ⟨_, _, rfl⟩
    · exact ⟨_, _, rfl⟩

theorem applySelects_shape (sels : List (String × String)) :
    ∀ (idx : grib_index),
    ∃ sel2 c2, applySelects idx sels
      = { idx with selection := sel2, cursor := c2 } := by
  induction sels with
  | nil => exact fun idx => ⟨idx.selection, idx.cursor, rfl⟩
  | cons kv rest ih =>
    intro idx
    obtain ⟨s1, c1, h1⟩ := select_shape idx kv.1 kv.2
    obtain ⟨s2, c2, h2⟩ := ih (grib_index_select_string idx kv.1 kv.2).1
    refine ⟨s2, c2, ?_⟩
    show applySelects (grib_index_select_string idx kv.1 kv.2).1 rest = _
    rw [h2, h1]

theorem select_cursor_zero (idx : grib_index) (key value : String)
    (h : idx.cursor = 0) :
    (grib_index_select_string idx key value).1.cursor = 0 := by
  unfold grib_index_select_string
  split
  · exact h
  · split
    · rfl
    · rfl

theorem applySelects_cursor_zero (sels : List (String × String)) :
    ∀ (idx : grib_index), idx.cursor = 0 →
    (applySelects idx sels).cursor = 0 := by
  induction sels with
  | nil => exact fun idx h => h
  | cons kv rest ih =>
    intro idx h
    exact ih _ (select_cursor_zero idx kv.1 kv.2 h)

theorem getElemq_set_self :
    ∀ (l : List Selection) (k : Nat) (s : Selection), k < l.length →
    (l.set k s)[k]? = some s := by
  intro l
  induction l with
  | nil => intro k s hk; exact absurd hk (Nat.not_lt_zero _)
  | cons a rest ih =>
    intro k s hk
    cases k with
    | zero => simp [List.set_cons_zero]
    | succ k =>
      simp only [List.set_cons_succ, List.getElem?_cons_succ]
      exact ih k s (Nat.lt_of_succ_lt_succ hk)

theorem selMatch_nothing_false :
    ∀ (ss : List Selection) (ds : List Nat) (k : Nat),
    ss[k]? = some Selection.nothingMatches → k < ds.length →
    selMatch ss ds = false := by
  intro ss
  induction ss with
  | nil => intro ds k h _; simp at h
  | cons s ss2 ih =>
    intro ds k h hk
    cases ds with
    | nil => exact absurd hk (Nat.not_lt_zero _)
    | cons d ds2 =>
      cases k with
      | zero =>
        simp only [List.getElem?_cons_zero, Option.some.injEq] at h
        subst h
        rfl
      | succ k =>
        simp only [List.getElem?_cons_succ] at h
        show ((match s with
               | Selection.chosen i => i == d
               | _ => false) && selMatch ss2 ds2) = false
        rw [ih ds2 k h (Nat.lt_of_succ_lt_succ hk)]
        exact Bool.and_false _

theorem keyPos_lt :
    ∀ (specs : List KeySpec) (key : String) (k : Nat),
    keyPos specs key = some k → k < specs.length := by
  intro specs
  induction specs with
  | nil => intro key k h; simp [keyPos] at h
  | cons ks rest ih =>
    intro key k h
    simp only [keyPos] at h
    by_cases hn : ks.name == key
    · rw [if_pos hn] at h
      simp only [Option.some.injEq] at h
      subst h
      exact Nat.succ_pos rest.length
    · rw [if_neg hn] at h
      cases hp : keyPos rest key with
      | none => rw [hp] at h; simp at h
      | some j =>
        rw [hp] at h
        simp only [Option.map_some', Option.some.injEq] at h
        subst h
        exact Nat.succ_lt_succ (ih key j hp)

/-! ### Build lemmas -/

theorem insertAll_fst_len :
    ∀ (ds : List (List String)) (vs : List String),
    (insertAll ds vs).1.length = ds.length := by
  intro ds
  induction ds with
  | nil => intro vs; cases vs <;> rfl
  | cons d ds ih =>
    intro vs
    cases vs with
    | nil => rfl
    | cons v vs => simp [insertAll, ih]

theorem insertAll_snd_len :
    ∀ (ds : List (List String)) (vs : List String), ds.length = vs.length →
    (insertAll ds vs).2.length = vs.length := by
  intro ds
  induction ds with
  | nil =>
    intro vs h
    cases vs with
    | nil => rfl
    | cons v vs => simp at h
  | cons d ds ih =>
    intro vs h
    cases vs with
    | nil => simp at h
    | cons v vs =>
      simp only [insertAll, List.length_cons]
      rw [ih vs (by simpa using h)]

theorem extractVals_len (m : GribMessage) :
    ∀ (keys : List String) (vs : List String),
    extractVals m keys = some vs → vs.length = keys.length := by
  intro keys
  induction keys with
  | nil =>
    intro vs h
    simp only [extractVals, Option.some.injEq] at h
    subst h
    rfl
  | cons k ks ih =>
    intro vs h
    simp only [extractVals] at h
    cases hl : lookupKey m k with
    | none => rw [hl] at h; simp at h
    | some v =>
      rw [hl] at h
      cases he : extractVals m ks with
      | none => rw [he] at h; simp at h
      | some vs2 =>
        rw [he] at h
        simp only [Option.map_some', Option.some.injEq] at h
        subst h
        simp [ih vs2 he]

theorem buildAux_dicts_len (keys : List String) :
    ∀ (ms : List GribMessage) (off : Nat) (dicts : List (List String)),
    (buildAux keys ms off dicts).1.length = dicts.length := by
  intro ms
  induction ms with
  | nil => intro off dicts; rfl
  | cons m ms ih =>
    intro off dicts
    cases he : extractVals m keys with
    | none => simp [buildAux, he, ih]
    | some vals =>
      simp only [buildAux, he]
      rw [ih (off + m.length) (insertAll dicts vals).1]
      exact insertAll_fst_len dicts vals

theorem buildAux_rows_width (keys : List String) :
    ∀ (ms : List GribMessage) (off : Nat) (dicts : List (List String)),
    dicts.length = keys.length →
    ∀ r ∈ (buildAux keys ms off dicts).2,
      r.dictIdxs.length = keys.length := by
  intro ms
  induction ms with
  | nil => intro off dicts _ r hr; simp [buildAux] at hr
  | cons m ms ih =>
    intro off dicts hlen r hr
    cases he : extractVals m keys with
    | none =>
      simp only [buildAux, he] at hr
      exact ih (off + m.length) dicts hlen r hr
    | some vals =>
      have hv : vals.length = keys.length := extractVals_len m keys vals he
      simp only [buildAux, he, List.mem_cons] at hr
      rcases hr with h1 | h2
      · subst h1
        show (insertAll dicts vals).2.length = keys.length
        rw [insertAll_snd_len dicts vals (by rw [hlen, hv])]
        exact hv
      · exact ih (off + m.length) (insertAll dicts vals).1
          (by rw [insertAll_fst_len, hlen]) r h2

theorem buildAux_offsets_lb (keys : List String) :
    ∀ (ms : List GribMessage) (off : Nat) (dicts : List (List String))
      (r : IndexRow), r ∈ (buildAux keys ms off dicts).2 → off ≤ r.offset := by
  intro ms
  induction ms with
  | nil => intro off dicts r hr; simp [buildAux] at hr
  | cons m ms ih =>
    intro off dicts r hr
    cases he : extractVals m keys with
    | none =>
      simp only [buildAux, he] at hr
      have := ih (off + m.length) dicts r hr
      omega
    | some vals =>
      simp only [buildAux, he, List.mem_cons] at hr
      rcases hr with h1 | h2
      · subst h1; exact Nat.le_refl off
      · have := ih (off + m.length) (insertAll dicts vals).1 r h2
        omega

theorem buildAux_offsets_sorted (keys : List String) :
    ∀ (ms : List GribMessage) (off : Nat) (dicts : List (List String)),
    ((buildAux keys ms off dicts).2).Pairwise
      (fun r1 r2 => r1.offset ≤ r2.offset) := by
  intro ms
  induction ms with
  | nil => intro off dicts; simp [buildAux]
  | cons m ms ih =>
    intro off dicts
    cases he : extractVals m keys with
    | none => simp only [buildAux, he]; exact ih (off + m.length) dicts
    | some vals =>
      simp only [buildAux, he]
      rw [List.pairwise_cons]
      constructor
      · intro r hr
        have := buildAux_offsets_lb keys ms (off + m.length)
          (insertAll dicts vals).1 r hr
        show off ≤ r.offset
        omega
      · exact ih (off + m.length) (insertAll dicts vals).1

/-! ### Codec roundtrip lemmas -/

theorem readKeySpec_ser (ks : KeySpec) (rest : List Tok) :
    readKeySpec (serKeySpec ks ++ rest) = .ok (ks, rest) := by
  obtain ⟨nm, kd⟩ := ks
  cases kd <;> rfl

theorem readN_strs :
    ∀ (d : List String) (rest : List Tok),
    readN readTokStr d.length (d.map Tok.s ++ rest) = .ok (d, rest) := by
  intro d
  induction d with
  | nil => intro rest; rfl
  | cons v d ih =>
    intro rest
    simp only [List.map_cons, List.cons_append, List.length_cons, readN,
      readTokStr, ih rest]

theorem readN_nats :
    ∀ (d : List Nat) (rest : List Tok),
    readN readTokNat d.length (d.map Tok.n ++ rest) = .ok (d, rest) := by
  intro d
  induction d with
  | nil => intro rest; rfl
  | cons v d ih =>
    intro rest
    simp only [List.map_cons, List.cons_append, List.length_cons, readN,
      readTokNat, ih rest]

theorem readDict_ser (d : List String) (rest : List Tok) :
    readDict (serDict d ++ rest) = .ok (d, rest) := by
  simp only [serDict, List.cons_append, readDict, readTokNat]
  exact readN_strs d rest

theorem readRow_ser (r : IndexRow) (nk : Nat) (rest : List Tok)
    (h : r.dictIdxs.length = nk) :
    readRow nk (serRow r ++ rest) = .ok (r, rest) := by
  obtain ⟨idxs, off, len⟩ := r
  simp only at h
  subst h
  simp only [serRow, List.append_assoc, List.cons_append, List.nil_append,
    readRow, readN_nats idxs (Tok.n off :: Tok.n len :: rest), readTokNat]

theorem readN_list {α : Type} (p : List Tok → Except Int (α × List Tok))
    (ser : α → List Tok) :
    ∀ (xs : List α),
    (∀ x ∈ xs, ∀ rest, p (ser x ++ rest) = .ok (x, rest)) →
    ∀ rest, readN p xs.length (xs.flatMap ser ++ rest) = .ok (xs, rest) := by
  intro xs
  induction xs with
  | nil => intro _ rest; rfl
  | cons x xs ih =>
    intro h rest
    simp only [List.flatMap_cons, List.append_assoc, List.length_cons, readN,
      h x (List.mem_cons_self x xs),
      ih (fun y hy rest2 => h y (List.mem_cons_of_mem x hy) rest2) rest]

theorem grib_index_read_write (idx : grib_index)
    (hd : idx.dictionaries.length = idx.key_specs.length)
    (hr : ∀ r ∈ idx.rows, r.dictIdxs.length = idx.key_specs.length)
    (hsel : idx.selection = idx.key_specs.map fun _ => Selection.unselected)
    (hc : idx.cursor = 0) :
    grib_index_read (grib_index_write idx) = .ok idx := by
  obtain ⟨specs, dicts, rows, sel, cur⟩ := idx
  simp only at hd hr hsel hc
  subst hsel
  subst hc
  have h1 : ∀ rest, readN readKeySpec specs.length
      (specs.flatMap serKeySpec ++ rest) = .ok (specs, rest) :=
    readN_list readKeySpec serKeySpec specs
      (fun ks _ rest => readKeySpec_ser ks rest)
  have h2 : ∀ rest, readN readDict specs.length
      (dicts.flatMap serDict ++ rest) = .ok (dicts, rest) := by
    rw [← hd]
    exact readN_list readDict serDict dicts
      (fun d _ rest => readDict_ser d rest)
  have h3 : readN (readRow specs.length) rows.length
      (rows.flatMap serRow ++ []) = .ok (rows, []) :=
    readN_list (readRow specs.length) serRow rows
      (fun r hrm rest => readRow_ser r specs.length rest (hr r hrm)) []
  rw [List.append_nil] at h3
  simp only [grib_index_write, grib_index_read, List.cons_append,
    List.nil_append, List.append_assoc, readTokNat, beq_self_eq_true,
    if_true, h1, h2, h3]

theorem findFirstMatch_eq_none (sel : List Selection) :
    ∀ (rows : List IndexRow), (∀ r ∈ rows, rowMatches sel r = false) →
    findFirstMatch sel rows = none := by
  intro rows
  induction rows with
  | nil => intro _; rfl
  | cons r rs ih =>
    intro h
    simp only [findFirstMatch, h r (List.mem_cons_self r rs), Bool.false_eq_true,
      if_false]
    rw [ih fun r2 h2 => h r2 (List.mem_cons_of_mem r h2)]
    rfl

/-! ### Claim theorems -/

/-- Claim C1: for every Index built from a file, serializing with
`grib_index_write` and deserializing with `grib_index_read` yields an Index
observationally identical to the original: `get_size` and the distinct-value
sequence agree on every key, and under every identical set of per-key
selections the full enumeration sequence (row order, offsets, lengths) is
identical. -/
theorem claim_C1_index_write_read_roundtrip (keys : List String)
    (msgs : List GribMessage) :
    ∃ idx2, grib_index_read (grib_index_write
        (grib_index_new_from_file keys msgs)) = .ok idx2
      ∧ (∀ key, grib_index_get_size idx2 key
          = grib_index_get_size (grib_index_new_from_file keys msgs) key)
      ∧ (∀ key, grib_index_get_string idx2 key
          = grib_index_get_string (grib_index_new_from_file keys msgs) key)
      ∧ ∀ sels, enumerateAll (applySelects idx2 sels)
          = enumerateAll
              (applySelects (grib_index_new_from_file keys msgs) sels) := by
  refine ⟨grib_index_new_from_file keys msgs, ?_,
    fun _ => rfl, fun _ => rfl, fun _ => rfl⟩
  apply grib_index_read_write
  · show (buildAux keys msgs 0 (keys.map fun _ => [])).1.length
      = (keys.map fun k => ({ name := k, kind := NativeKind.str } : KeySpec)).length
    rw [buildAux_dicts_len, List.length_map, List.length_map]
  · intro r hrm
    show r.dictIdxs.length
      = (keys.map fun k => ({ name := k, kind := NativeKind.str } : KeySpec)).length
    rw [List.length_map]
    exact buildAux_rows_width keys msgs 0 (keys.map fun _ => [])
      (List.length_map keys _) r hrm
  · show (keys.map fun _ => Selection.unselected)
      = ((keys.map fun k => ({ name := k, kind := NativeKind.str } : KeySpec)).map
          fun _ => Selection.unselected)
    rw [List.map_map]
    rfl
  · rfl

/-- Claim C2: for every built Index and every complete per-key selection,
repeated enumeration yields exactly the rows matching the selection, in
original file-appearance order, and the returned message offsets form a
non-decreasing sequence. -/
theorem claim_C2_enumeration_stable (keys : List String)
    (msgs : List GribMessage) (sels : List (String × String))
    (idx : grib_index)
    (hidx : idx = applySelects (grib_index_new_from_file keys msgs) sels)
    (hact : allSelected idx = true) :
    enumerateAll idx
      = ((grib_index_new_from_file keys msgs).rows.filter
          (rowMatches idx.selection)).map rowLoc
    ∧ ((enumerateAll idx).map Prod.fst).Pairwise (fun x y => x ≤ y) := by
  subst hidx
  have hcz : (applySelects (grib_index_new_from_file keys msgs) sels).cursor
      = 0 :=
    applySelects_cursor_zero sels (grib_index_new_from_file keys msgs) rfl
  have henum :=
    enumerateAll_eq (applySelects (grib_index_new_from_file keys msgs) sels)
      hact
  obtain ⟨s2, c2, hsh⟩ :=
    applySelects_shape sels (grib_index_new_from_file keys msgs)
  have hrows : (applySelects (grib_index_new_from_file keys msgs) sels).rows
      = (grib_index_new_from_file keys msgs).rows := by rw [hsh]
  constructor
  · rw [henum, hrows, hcz, List.drop_zero]
  · rw [henum, hrows, hcz, List.drop_zero, List.map_map, List.pairwise_map]
    have hsorted : ((grib_index_new_from_file keys msgs).rows).Pairwise
        (fun r1 r2 => r1.offset ≤ r2.offset) :=
      buildAux_offsets_sorted keys msgs 0 (keys.map fun _ => [])
    exact hsorted.sublist (List.filter_sublist _)

/-- Claim C3: selecting a value absent from a key's dictionary fails with
`GRIB_NOT_FOUND`, and (with every key actively selected) every subsequent
enumeration call returns a null handle with `GRIB_END_OF_INDEX` from the
very first call on, yielding zero handles and raising no other error. -/
theorem claim_C3_no_match_termination (idx : grib_index)
    (key value : String) (k : Nat)
    (hk : keyPos idx.key_specs key = some k)
    (hnf : dictFind (idx.dictionaries.getD k []) value = none)
    (hlen : idx.selection.length = idx.key_specs.length)
    (hw : ∀ r ∈ idx.rows, idx.key_specs.length ≤ r.dictIdxs.length)
    (hact : allSelected (grib_index_select_string idx key value).1 = true) :
    (grib_index_select_string idx key value).2 = GRIB_NOT_FOUND
    ∧ enumerateAll (grib_index_select_string idx key value).1 = []
    ∧ ∀ n, (grib_handle_new_from_index
        (stepN n (grib_index_select_string idx key value).1)).2
        = (none, GRIB_END_OF_INDEX) := by
  have hklt : k < idx.key_specs.length := keyPos_lt idx.key_specs key k hk
  have hseleq : grib_index_select_string idx key value
      = ({ idx with
            selection := idx.selection.set k Selection.nothingMatches,
            cursor := 0 }, GRIB_NOT_FOUND) := by
    unfold grib_index_select_string
    simp only [hk, hnf]
  have hnomatch : ∀ r ∈ idx.rows,
      rowMatches (idx.selection.set k Selection.nothingMatches) r = false := by
    intro r hr
    apply selMatch_nothing_false _ _ k
    · exact getElemq_set_self idx.selection k Selection.nothingMatches
        (by rw [hlen]; exact hklt)
    · exact Nat.lt_of_lt_of_le hklt (hw r hr)
  have hstep : ∀ (j : grib_index),
      j.selection = idx.selection.set k Selection.nothingMatches →
      j.rows = idx.rows → allSelected j = true →
      grib_handle_new_from_index j
        = ({ j with cursor := j.rows.length }, none, GRIB_END_OF_INDEX) := by
    intro j hjs hjr hja
    unfold grib_handle_new_from_index
    rw [if_pos hja]
    rw [findFirstMatch_eq_none j.selection (j.rows.drop j.cursor)
      (fun r hrd => by
        rw [hjs]
        exact hnomatch r (List.drop_subset _ _ (hjr ▸ hrd)))]
  refine ⟨by rw [hseleq], ?_, ?_⟩
  · rw [enumerateAll_eq _ hact]
    rw [hseleq]
    have : (idx.rows.drop 0).filter
        (rowMatches (idx.selection.set k Selection.nothingMatches)) = [] := by
      rw [List.drop_zero]
      rw [List.filter_eq_nil_iff]
      intro r hr
      simp [hnomatch r hr]
    simp only at this ⊢
    rw [this]
    rfl
  · intro n
    obtain ⟨c, hsh⟩ := stepN_shape n (grib_index_select_string idx key value).1
    have hja : allSelected (stepN n (grib_index_select_string idx key value).1)
        = true := by
      rw [hsh]
      exact hact
    rw [hstep _ (by rw [hsh, hseleq]) (by rw [hsh, hseleq]) hja]

/-- Claim C4: a successful select call after any number of enumeration steps
resets the cursor to the beginning, and the number of handles enumerated
after the reset equals the count of a fresh enumeration under the same
selection. -/
theorem claim_C4_selection_reset (idx : grib_index) (key value : String)
    (n : Nat)
    (hok : (grib_index_select_string (stepN n idx) key value).2
      = GRIB_SUCCESS) :
    (grib_index_select_string (stepN n idx) key value).1.cursor = 0
    ∧ (enumerateAll (grib_index_select_string (stepN n idx) key value).1).length
      = (enumerateAll (grib_index_select_string idx key value).1).length := by
  obtain ⟨c, hc⟩ := stepN_shape n idx
  rw [hc] at hok ⊢
  have hbranch : ∃ k d, keyPos idx.key_specs key = some k
      ∧ dictFind (idx.dictionaries.getD k []) value = some d := by
    unfold grib_index_select_string at hok
    dsimp only at hok
    cases hkp : keyPos idx.key_specs key with
    | none =>
      rw [hkp] at hok
      dsimp only at hok
      exact absurd hok (by decide)
    | some k =>
      rw [hkp] at hok
      dsimp only at hok
      cases hdf : dictFind (idx.dictionaries.getD k []) value with
      | none =>
        rw [hdf] at hok
        dsimp only at hok
        exact absurd hok (by decide)
      | some d => exact ⟨k, d, rfl, hdf⟩
  obtain ⟨k, d, hkp, hdf⟩ := hbranch
  have hsel1 : grib_index_select_string { idx with cursor := c } key value
      = ({ idx with
            selection := idx.selection.set k (Selection.chosen d),
            cursor := 0 }, GRIB_SUCCESS) := by
    unfold grib_index_select_string
    dsimp only
    simp only [hkp, hdf]
  have hsel2 : grib_index_select_string idx key value
      = ({ idx with
            selection := idx.selection.set k (Selection.chosen d),
            cursor := 0 }, GRIB_SUCCESS) := by
    unfold grib_index_select_string
    simp only [hkp, hdf]
  exact ⟨by rw [hsel1], by rw [hsel1, hsel2]⟩

/-- Claim C5: for a tree containing two entries with the same name and
differing values, `grib_get_long` returns the value of the entry occurring
latest in decode order, and `grib_set_long` modifies that latest entry. -/
theorem claim_C5_last_one_wins (t1 t2 t3 : AccessorTree) (a b : Accessor)
    (key : String) (v bv : Int)
    (_ha : a.name = key) (_hav : a.value ≠ b.value)
    (hb : b.name = key) (h3 : ∀ c ∈ t3, c.name ≠ key)
    (hbk : b.native_kind = NativeKind.long)
    (hbv : b.value = TypedValue.longV bv)
    (hbro : b.read_only = false) (hbw : b.width = none) :
    grib_get_long (t1 ++ a :: t2 ++ b :: t3) key = .ok bv
    ∧ grib_set_long (t1 ++ a :: t2 ++ b :: t3) key v
      = (t1 ++ a :: t2 ++ { b with value := TypedValue.longV v } :: t3,
         GRIB_SUCCESS) := by
  have hset : setAccessorLong v b = .ok { b with value := TypedValue.longV v } := by
    simp [setAccessorLong, hbro, hbk, hbw, fitsWidth]
  constructor
  · unfold grib_get_long
    rw [findLastAcc_last (t1 ++ a :: t2) t3 b key hb h3]
    show valueToLong b.value = Except.ok bv
    rw [hbv]
    rfl
  · unfold grib_set_long
    rw [setLastWith_last_ok (t1 ++ a :: t2) t3 b _ key _ hb h3 hset]

/-- Claim C6: setting a long into a string-native field round-trips through
canonical formatting (`get_string` after `set_long 42` yields "42"), and
setting a non-numeric string into a long-native field fails with
`GRIB_WRONG_CONVERSION`. -/
theorem claim_C6_type_coercion_boundary :
    (∀ (t1 t3 : AccessorTree) (b : Accessor) (key : String),
      b.name = key → (∀ c ∈ t3, c.name ≠ key) →
      b.native_kind = NativeKind.str → b.read_only = false →
      (grib_set_long (t1 ++ b :: t3) key 42).2 = GRIB_SUCCESS
      ∧ grib_get_string (grib_set_long (t1 ++ b :: t3) key 42).1 key
          = .ok "42")
    ∧ (∀ (t1 t3 : AccessorTree) (b : Accessor) (key s : String),
      b.name = key → (∀ c ∈ t3, c.name ≠ key) →
      b.native_kind = NativeKind.long → b.read_only = false →
      parseIntStr s = none →
      grib_set_string (t1 ++ b :: t3) key s
        = (t1 ++ b :: t3, GRIB_WRONG_CONVERSION)) := by
  constructor
  · intro t1 t3 b key hb h3 hbk hbro
    have htos : toString (42 : Int) = "42" := rfl
    have hset : setAccessorLong 42 b
        = .ok { b with value := TypedValue.strV "42" } := by
      simp [setAccessorLong, hbro, hbk, htos]
    have hstep : grib_set_long (t1 ++ b :: t3) key 42
        = (t1 ++ { b with value := TypedValue.strV "42" } :: t3,
           GRIB_SUCCESS) := by
      unfold grib_set_long
      rw [setLastWith_last_ok t1 t3 b _ key _ hb h3 hset]
    refine ⟨by rw [hstep], ?_⟩
    rw [hstep]
    unfold grib_get_string
    dsimp only
    rw [findLastAcc_last t1 t3 { b with value := TypedValue.strV "42" }
      key hb h3]
    rfl
  · intro t1 t3 b key s hb h3 hbk hbro hs
    have hset : setAccessorString s b = .error GRIB_WRONG_CONVERSION := by
      simp [setAccessorString, hbro, hbk, hs]
    unfold grib_set_string
    rw [setLastWith_last_err t1 t3 b key _ _ hb h3 hset]

/-- Claim C7: once a `grib_keys_iterator_next` call finds no further
matching entry and returns 0, the iterator is in the terminal exhausted
state and every subsequent call leaves it there and returns 0, for any
number of repetitions. -/
theorem claim_C7_iterator_exhausted_terminal (it : grib_keys_iterator)
    (h : (grib_keys_iterator_next it).2 = 0) :
    (grib_keys_iterator_next it).1.state = KIState.exhausted
    ∧ ∀ n, kiStepN n (grib_keys_iterator_next it).1
        = (grib_keys_iterator_next it).1
      ∧ (grib_keys_iterator_next
          (kiStepN n (grib_keys_iterator_next it).1)).2 = 0 := by
  have hex := ki_next_zero_exhausted it h
  have hfix : ∀ n, kiStepN n (grib_keys_iterator_next it).1
      = (grib_keys_iterator_next it).1 := by
    intro n
    induction n with
    | zero => rfl
    | succ n ih =>
      show (grib_keys_iterator_next (kiStepN n _)).1 = _
      rw [ih, ki_next_of_exhausted _ hex]
  exact ⟨hex, fun n =>
    ⟨hfix n, by rw [hfix n, ki_next_of_exhausted _ hex]⟩⟩

/-- Claim C8: a set operation failing with `WrongConversion`, `OutOfRange`,
`ReadOnly` or `InvalidType` leaves the AccessorTree completely unchanged:
every subsequent get returns the pre-call value. -/
theorem claim_C8_failed_set_no_mutation (t : AccessorTree) (key : String)
    (v w : Int) (s : String) :
    ((grib_set_long t key v).2 = GRIB_WRONG_CONVERSION
      ∨ (grib_set_long t key v).2 = GRIB_OUT_OF_RANGE
      ∨ (grib_set_long t key v).2 = GRIB_READ_ONLY
      ∨ (grib_set_long t key v).2 = GRIB_INVALID_TYPE →
      (grib_set_long t key v).1 = t
      ∧ (∀ k2, grib_get_long (grib_set_long t key v).1 k2
          = grib_get_long t k2)
      ∧ ∀ k2, grib_get_string (grib_set_long t key v).1 k2
          = grib_get_string t k2)
    ∧ ((grib_set_double t key w).2 = GRIB_WRONG_CONVERSION
      ∨ (grib_set_double t key w).2 = GRIB_OUT_OF_RANGE
      ∨ (grib_set_double t key w).2 = GRIB_READ_ONLY
      ∨ (grib_set_double t key w).2 = GRIB_INVALID_TYPE →
      (grib_set_double t key w).1 = t
      ∧ (∀ k2, grib_get_long (grib_set_double t key w).1 k2
          = grib_get_long t k2)
      ∧ ∀ k2, grib_get_string (grib_set_double t key w).1 k2
          = grib_get_string t k2)
    ∧ ((grib_set_string t key s).2 = GRIB_WRONG_CONVERSION
      ∨ (grib_set_string t key s).2 = GRIB_OUT_OF_RANGE
      ∨ (grib_set_string t key s).2 = GRIB_READ_ONLY
      ∨ (grib_set_string t key s).2 = GRIB_INVALID_TYPE →
      (grib_set_string t key s).1 = t
      ∧ (∀ k2, grib_get_long (grib_set_string t key s).1 k2
          = grib_get_long t k2)
      ∧ ∀ k2, grib_get_string (grib_set_string t key s).1 k2
          = grib_get_string t k2) := by
  have hne : ∀ e : Int, e = GRIB_WRONG_CONVERSION ∨ e = GRIB_OUT_OF_RANGE
      ∨ e = GRIB_READ_ONLY ∨ e = GRIB_INVALID_TYPE → e ≠ GRIB_SUCCESS := by
    intro e he
    rcases he with h1 | h1 | h1 | h1 <;> rw [h1] <;> decide
  refine ⟨fun he => ?_, fun he => ?_, fun he => ?_⟩
  · have h1 := grib_set_long_fail_unchanged t key v (hne _ he)
    exact ⟨h1, fun k2 => by rw [h1], fun k2 => by rw [h1]⟩
  · have h1 := grib_set_double_fail_unchanged t key w (hne _ he)
    exact ⟨h1, fun k2 => by rw [h1], fun k2 => by rw [h1]⟩
  · have h1 := grib_set_string_fail_unchanged t key s (hne _ he)
    exact ⟨h1, fun k2 => by rw [h1], fun k2 => by rw [h1]⟩

/-- Claim C9: for a key name matching several entries,
`grib_get_size` returns the total sum of the coded-value counts of all
entries with that name, not the count of the last-matching entry only. -/
theorem claim_C9_get_size_sums_all (t : AccessorTree) (key : String)
    (h : 2 ≤ (t.filter fun a => a.name == key).length) :
    grib_get_size t key
      = .ok (((t.filter fun a => a.name == key).map
          fun a => valueCount a.value).sum) := by
  have hne : (t.filter fun a => a.name == key) ≠ [] := by
    intro hnil
    rw [hnil] at h
    simp at h
  unfold grib_get_size
  rw [containsName_of_filter_ne_nil t key hne]
  rw [if_pos rfl, sizeSum_eq_filter_sum]

/-- Claim C10: for a key name matching several entries,
`grib_get_length` returns the maximum over all same-name entries of the
length of the entry's string representation, not the last entry's only. -/
theorem claim_C10_get_length_max_all (t : AccessorTree) (key : String)
    (h : 2 ≤ (t.filter fun a => a.name == key).length) :
    grib_get_length t key
      = .ok (((t.filter fun a => a.name == key).map
          fun a => (valueToString a.value).length).foldr max 0) := by
  have hne : (t.filter fun a => a.name == key) ≠ [] := by
    intro hnil
    rw [hnil] at h
    simp at h
  unfold grib_get_length
  rw [containsName_of_filter_ne_nil t key hne]
  rw [if_pos rfl, lenMax_eq_filter_max]

/-! ### Witnesses -/

/-- Witness for claim C2 at the spec's end-to-end scenario. -/
theorem claim_C2_witness :
    allSelected exampleSelected = true
    ∧ (enumerateAll exampleSelected
        = ((grib_index_new_from_file exampleKeys exampleMsgs).rows.filter
            (rowMatches exampleSelected.selection)).map rowLoc
      ∧ ((enumerateAll exampleSelected).map Prod.fst).Pairwise
          (fun x y => x ≤ y)) :=
  ⟨by decide,
   claim_C2_enumeration_stable exampleKeys exampleMsgs exampleSels
     exampleSelected rfl (by decide)⟩

/-- Witness for claim C3: selecting the absent value q for shortName. -/
theorem claim_C3_witness :
    (keyPos exampleIndexC3.key_specs "shortName" = some 0
      ∧ dictFind (exampleIndexC3.dictionaries.getD 0 []) "q" = none
      ∧ exampleIndexC3.selection.length = exampleIndexC3.key_specs.length
      ∧ (∀ r ∈ exampleIndexC3.rows,
          exampleIndexC3.key_specs.length ≤ r.dictIdxs.length)
      ∧ allSelected
          (grib_index_select_string exampleIndexC3 "shortName" "q").1 = true)
    ∧ ((grib_index_select_string exampleIndexC3 "shortName" "q").2
        = GRIB_NOT_FOUND
      ∧ enumerateAll
          (grib_index_select_string exampleIndexC3 "shortName" "q").1 = []
      ∧ ∀ n, (grib_handle_new_from_index (stepN n
          (grib_index_select_string exampleIndexC3 "shortName" "q").1)).2
          = (none, GRIB_END_OF_INDEX)) :=
  ⟨⟨by decide, by decide, by decide, by decide, by decide⟩,
   claim_C3_no_match_termination exampleIndexC3 "shortName" "q" 0
     (by decide) (by decide) (by decide) (by decide) (by decide)⟩

/-- Witness for claim C4: re-selecting shortName = z after one enumeration
step. -/
theorem claim_C4_witness :
    (grib_index_select_string (stepN 1 exampleSelected) "shortName" "z").2
      = GRIB_SUCCESS
    ∧ ((grib_index_select_string (stepN 1 exampleSelected)
          "shortName" "z").1.cursor = 0
      ∧ (enumerateAll (grib_index_select_string (stepN 1 exampleSelected)
            "shortName" "z").1).length
        = (enumerateAll (grib_index_select_string exampleSelected
            "shortName" "z").1).length) :=
  ⟨by decide,
   claim_C4_selection_reset exampleSelected "shortName" "z" 1 (by decide)⟩

/-- Witness for claim C5 on a two-entry tree named count. -/
theorem claim_C5_witness :
    (accA.name = "count" ∧ accA.value ≠ accB.value ∧ accB.name = "count"
      ∧ accB.native_kind = NativeKind.long
      ∧ accB.value = TypedValue.longV 7
      ∧ accB.read_only = false ∧ accB.width = none)
    ∧ (grib_get_long ([] ++ accA :: [] ++ accB :: []) "count" = .ok 7
      ∧ grib_set_long ([] ++ accA :: [] ++ accB :: []) "count" 5
        = ([] ++ accA :: [] ++ { accB with value := TypedValue.longV 5 } :: [],
           GRIB_SUCCESS)) :=
  ⟨⟨by decide, by decide, by decide, by decide, by decide, by decide,
    by decide⟩,
   claim_C5_last_one_wins [] [] [] accA accB "count" 5 7 (by decide)
     (by decide) (by decide) (by decide) (by decide) (by decide) (by decide)
     (by decide)⟩

/-- Witness for claim C6: both coercion-boundary directions at concrete
accessors. -/
theorem claim_C6_witness :
    ((grib_set_long [accStr] "str" 42).2 = GRIB_SUCCESS
      ∧ grib_get_string (grib_set_long [accStr] "str" 42).1 "str"
          = .ok "42")
    ∧ grib_set_string [accA] "count" "abc"
        = ([accA], GRIB_WRONG_CONVERSION) :=
  ⟨claim_C6_type_coercion_boundary.1 [] [] accStr "str" (by decide)
     (by decide) (by decide) (by decide),
   claim_C6_type_coercion_boundary.2 [] [] accA "count" "abc" (by decide)
     (by decide) (by decide) (by decide) (by decide)⟩

/-- Witness for claim C7 on an iterator over an empty tree. -/
theorem claim_C7_witness :
    (grib_keys_iterator_next (grib_keys_iterator_new [] 0 none)).2 = 0
    ∧ ((grib_keys_iterator_next
          (grib_keys_iterator_new [] 0 none)).1.state = KIState.exhausted
      ∧ ∀ n, kiStepN n (grib_keys_iterator_next
            (grib_keys_iterator_new [] 0 none)).1
          = (grib_keys_iterator_next (grib_keys_iterator_new [] 0 none)).1
        ∧ (grib_keys_iterator_next (kiStepN n (grib_keys_iterator_next
            (grib_keys_iterator_new [] 0 none)).1)).2 = 0) :=
  ⟨by decide,
   claim_C7_iterator_exhausted_terminal (grib_keys_iterator_new [] 0 none)
     (by decide)⟩

/-- Witness for claim C8: a read-only field rejects the set and the tree is
unchanged. -/
theorem claim_C8_witness :
    (grib_set_long [accRO] "ro" 5).2 = GRIB_READ_ONLY
    ∧ ((grib_set_long [accRO] "ro" 5).1 = [accRO]
      ∧ (∀ k2, grib_get_long (grib_set_long [accRO] "ro" 5).1 k2
          = grib_get_long [accRO] k2)
      ∧ ∀ k2, grib_get_string (grib_set_long [accRO] "ro" 5).1 k2
          = grib_get_string [accRO] k2) :=
  ⟨by decide,
   (claim_C8_failed_set_no_mutation [accRO] "ro" 5 0 "x").1
     (Or.inr (Or.inr (Or.inl (by decide))))⟩

/-- Witness for claim C9 on a tree with two entries named count. -/
theorem claim_C9_witness :
    2 ≤ (([accA, accB] : AccessorTree).filter
        fun a => a.name == "count").length
    ∧ grib_get_size [accA, accB] "count"
      = .ok (((([accA, accB] : AccessorTree).filter
          fun a => a.name == "count").map
          fun a => valueCount a.value).sum) :=
  ⟨by decide, claim_C9_get_size_sums_all [accA, accB] "count" (by decide)⟩

/-- Witness for claim C10 on a tree with two entries named count. -/
theorem claim_C10_witness :
    2 ≤ (([accA, accB] : AccessorTree).filter
        fun a => a.name == "count").length
    ∧ grib_get_length [accA, accB] "count"
      = .ok (((([accA, accB] : AccessorTree).filter
          fun a => a.name == "count").map
          fun a => (valueToString a.value).length).foldr max 0) :=
  ⟨by decide, claim_C10_get_length_max_all [accA, accB] "count" (by decide)⟩
